import Mathlib

/-!
# SigFlow-py: verification of the ITCH 5.0 VWAP pipeline

Shallow embedding of the repository's two ITCH decoders:

* `src/engine/hourly_vwap.py` — class `ITCH`: a streaming parser that frames
  the byte stream with a per-type size table, decodes Trade (`P`) messages,
  accumulates them per hour, and on each hour change flushes the accumulated
  trades through `cal_vwap` into a space-separated file `output/<hour>.txt`.
* `src/engine/parser.py` — class `ITCH`: a parser that additionally maintains
  an order book (order reference -> order details), a stock directory, and a
  list of executions, handling `S R A F U D E C P` messages, halting on a
  system-event `M` (market close).

Modelling conventions:

* Bytes are `Nat` (each < 256 in real streams; no bound is needed for the
  arithmetic modelled here). A message body is a `List Nat`.
* Python floats are modelled as `ℚ`. `price_int / 10000.0` becomes division
  in `ℚ`; pandas `NaN` (from a 0/0 group mean) is modelled as `none` in an
  `Option ℚ`.
* Python dicts keyed by integers are modelled as functions `Nat → Option _`.
* `struct.unpack` raises `struct.error` when the buffer length differs from
  the format size; the code catches it and returns, which is modelled by an
  explicit length guard returning the state unchanged.
* The `BookSnapshotter` side channel of `parser.py` (an append-only list of
  top-of-book snapshots written to `output/snapshots.csv`) is orthogonal to
  every claim and is not modelled.
* File writes are modelled as values: an output file is a record of the path,
  the header row and the data rows that `DataFrame.to_csv` would write.
* The parse loops are structurally recursive on an explicit fuel argument;
  every iteration consumes at least one byte of the stream, so any fuel at
  least the stream length computes the run of the Python `while True` loop.
-/

/-! ## Byte-level helpers -/

/-- `int.from_bytes(bs, byteorder='big')`: big-endian accumulation. -/
def beNat (bs : List Nat) : Nat := bs.foldl (fun a b => a * 256 + b) 0

/-- Python slice `msg[i:j]` (for `i ≤ j`; clamps at the end like Python). -/
def pySlice (msg : List Nat) (i j : Nat) : List Nat := (msg.drop i).take (j - i)

/-- `int.from_bytes(msg[i:j], 'big')`. -/
def beField (msg : List Nat) (i j : Nat) : Nat := beNat (pySlice msg i j)

/-- The whitespace set of Python's `str.strip()`. -/
def isPyWhitespace (c : Char) : Bool :=
  c = ' ' || c = '\t' || c = '\n' || c = '\x0d' || c = '\x0b' || c = '\x0c'

/-- `bytes.decode('ascii')` on bytes that are valid ASCII (the feeds decoded
here carry printable ASCII in the decoded fields; `Char.ofNat` maps each code
point). -/
def decodeAscii (bs : List Nat) : String := String.mk (bs.map Char.ofNat)

/-- Python `str.strip()`: drop leading and trailing whitespace. -/
def pyStrip (s : String) : String :=
  String.mk (((s.data.dropWhile isPyWhitespace).reverse.dropWhile isPyWhitespace).reverse)

/-- Render `n` with at least two digits, as `strftime` field padding and
`f"{h:02d}"` do for values below 100. -/
def twoDigits (n : Nat) : String := (if n < 10 then "0" else "") ++ toString n

/-- `convert_timestamp`: nanoseconds since midnight rendered as `HH:MM:SS`
via `datetime.datetime.fromtimestamp(ts / 1e9, tz=utc).strftime('%H:%M:%S')`.
The Python route goes through a float division and UTC date arithmetic; for
an intraday nanosecond count this is the integer second of the timestamp,
split into hours (mod 24), minutes and seconds. -/
def convertTimestamp (ts : Nat) : String :=
  let secs := ts / 1000000000
  twoDigits (secs / 3600 % 24) ++ ":" ++ twoDigits (secs / 60 % 60) ++ ":" ++ twoDigits (secs % 60)

/-- `time_str.split(":")[0]`: the text before the first colon. -/
def hourPart (s : String) : String := String.mk (s.data.takeWhile (fun c => c ≠ ':'))

/-- The hour that `pd.to_datetime(s, format="%H:%M:%S").dt.hour` extracts from
a rendered `HH:MM:SS` string: the leading two-digit field. (`to_datetime`
raises on malformed input; the pipeline feeds it only strings produced by
`convert_timestamp`, for which the leading field parses.) -/
def hourOfTimeStr (s : String) : Nat := (String.toNat? (String.mk (s.data.take 2))).getD 0

/-! ## hourly_vwap.py: trades, cal_vwap, flush, parse -/

/-- One decoded trade record `[time, symbol, price, volume]` as built by
`process_trade`. -/
structure Trade where
  time : String
  symbol : String
  price : ℚ
  volume : Nat
deriving Repr, DecidableEq

/-- `process_trade` (and the identical `process_trade_P` of `parser.py`):
decode a 43-byte Trade (`P`) body. Returns the trade record and the hour
string, or `none` for a body whose length is not 43 (the code prints a
message and returns `None, None`). -/
def processTrade (msg : List Nat) : Option (Trade × String) :=
  if msg.length ≠ 43 then none
  else
    let timestamp := beField msg 4 10
    let volume := beField msg 19 23
    let symbol := pyStrip (decodeAscii (pySlice msg 23 31))
    let price : ℚ := (beField msg 31 35 : ℚ) / 10000
    let timeStr := convertTimestamp timestamp
    some (⟨timeStr, symbol, price, volume⟩, hourPart timeStr)

/-- Round-half-to-even on a rational, as numpy rounding behaves on exactly
representable halves. -/
def roundHalfEven (q : ℚ) : ℤ :=
  if q - ⌊q⌋ < 1 / 2 then ⌊q⌋
  else if 1 / 2 < q - ⌊q⌋ then ⌊q⌋ + 1
  else if ⌊q⌋ % 2 = 0 then ⌊q⌋ else ⌊q⌋ + 1

/-- `.round(2)` on a Series value: round half to even at two decimals. -/
def round2 (q : ℚ) : ℚ := (roundHalfEven (q * 100) : ℚ) / 100

/-- One output row of `cal_vwap` (columns `time`, `symbol`, `vwap`).
`vwap = none` models the `NaN` that pandas produces when a group's volume
sum is 0 (a 0/0 division). -/
structure VRow where
  time : String
  symbol : String
  vwap : Option ℚ
deriving Repr, DecidableEq

/-- `cal_vwap`: group the trade records by `(hour, symbol)`, sum
`amount = price * volume` and `volume` over each group, and emit
`time = f"{hour:02d}:00:00"`, the symbol, and `round((Σ amount)/(Σ volume), 2)`
per group. Group keys are deduplicated; pandas emits the groups in sorted key
order, which no theorem below depends on. -/
def calVwap (trades : List Trade) : List VRow :=
  let keys := (trades.map (fun t => (hourOfTimeStr t.time, t.symbol))).dedup
  keys.map (fun k =>
    let grp := trades.filter (fun t => (hourOfTimeStr t.time, t.symbol) = k)
    let amount : ℚ := (grp.map (fun t => t.price * (t.volume : ℚ))).sum
    let vol : Nat := (grp.map (fun t => t.volume)).sum
    { time := twoDigits k.1 ++ ":00:00"
      symbol := k.2
      vwap := if vol = 0 then none else some (round2 (amount / (vol : ℚ))) })

/-- A file written by `DataFrame.to_csv(path, sep=" ", index=False)`: its
path, its header row and its data rows (space-separated rendering, no index
column). -/
structure OutFile where
  path : String
  header : List String
  rows : List VRow
deriving Repr, DecidableEq

/-- The mutable state of `hourly_vwap.ITCH` plus the files it has written. -/
structure HState where
  trades : List Trade
  currentHour : Option String
  outputs : List OutFile
deriving Repr, DecidableEq

/-- `flush_trades(hour)`: if any trades are accumulated, run `cal_vwap` on
them, write the result to `output/<hour>.txt` and clear the accumulator. -/
def flushTrades (hour : String) (s : HState) : HState :=
  if s.trades = [] then s
  else
    { trades := []
      currentHour := s.currentHour
      outputs := s.outputs ++
        [⟨"output/" ++ hour ++ ".txt", ["time", "symbol", "vwap"], calVwap s.trades⟩] }

/-- The `record_sizes` table of `hourly_vwap.py` (body length per type byte;
note: no entry for `J` or `h`, unlike `parser.py`). -/
def hourlyRecordSize (h : Nat) : Option Nat :=
  if h = 83 then some 11        -- S
  else if h = 82 then some 38   -- R
  else if h = 72 then some 24   -- H
  else if h = 89 then some 19   -- Y
  else if h = 76 then some 25   -- L
  else if h = 86 then some 34   -- V
  else if h = 87 then some 11   -- W
  else if h = 75 then some 27   -- K
  else if h = 65 then some 35   -- A
  else if h = 70 then some 39   -- F
  else if h = 69 then some 30   -- E
  else if h = 67 then some 35   -- C
  else if h = 88 then some 22   -- X
  else if h = 68 then some 18   -- D
  else if h = 85 then some 34   -- U
  else if h = 80 then some 43   -- P
  else if h = 81 then some 39   -- Q
  else if h = 66 then some 18   -- B
  else if h = 73 then some 49   -- I
  else if h = 78 then some 19   -- N
  else none

/-- The `P`-branch of the parse loop of `hourly_vwap.ITCH.parse`: decode the
trade; on an undecodable body do nothing; set the current hour if unset;
flush the accumulated trades when the hour changes; append the trade. -/
def hourlyHandleP (msg : List Nat) (s : HState) : HState :=
  match processTrade msg with
  | none => s
  | some (trade, tradeHour) =>
    let s1 := match s.currentHour with
      | none => { s with currentHour := some tradeHour }
      | some _ => s
    let s2 := match s1.currentHour with
      | some ch =>
        if tradeHour ≠ ch then
          { flushTrades ch s1 with currentHour := some tradeHour }
        else s1
      | none => s1
    { s2 with trades := s2.trades ++ [trade] }

/-- The `while True` loop of `hourly_vwap.ITCH.parse`: read one type byte;
stop on end of stream; skip the single byte when the type is unknown (no
body is consumed); otherwise read the body and, for `P`, handle the trade. -/
def hourlyLoop : Nat → List Nat → HState → HState
  | 0, _, s => s
  | _ + 1, [], s => s
  | fuel + 1, header :: rest, s =>
    match hourlyRecordSize header with
    | none => hourlyLoop fuel rest s
    | some size =>
      if header = 80 then hourlyLoop fuel (rest.drop size) (hourlyHandleP (rest.take size) s)
      else hourlyLoop fuel (rest.drop size) s

/-- `hourly_vwap.ITCH.parse` on a byte stream: run the loop from the empty
state, then flush the remaining trades (the code guards the final flush with
`if self.trades`, a check `flush_trades` repeats; `current_hour` is set
whenever a trade has been appended). -/
def hourlyParse (stream : List Nat) : HState :=
  let final := hourlyLoop (stream.length + 1) stream ⟨[], none, []⟩
  match final.currentHour with
  | some ch => flushTrades ch final
  | none => final

/-! ## parser.py: order book, executions, message processing -/

/-- One order-book entry of `parser.py` (the `timestamp` slot is always set
to `None` by `process_add_order` and never read by the message handlers, so
it is omitted). -/
structure Order where
  stock : String
  price : ℚ
  volume : Nat
  side : String
deriving Repr, DecidableEq

/-- One recorded execution of `parser.py`. -/
structure Exec where
  stock : String
  price : ℚ
  volume : Nat
  timestamp : String
deriving Repr, DecidableEq

/-- Python dict assignment `m[k] = v`. -/
def dictInsert {α : Type} (m : Nat → Option α) (k : Nat) (v : α) : Nat → Option α :=
  fun q => if q = k then some v else m q

/-- Python dict `m.pop(k)` (the value is discarded). -/
def dictErase {α : Type} (m : Nat → Option α) (k : Nat) : Nat → Option α :=
  fun q => if q = k then none else m q

/-- The mutable state of `parser.ITCH`. -/
structure PState where
  order_book : Nat → Option Order
  stock_map : Nat → Option String
  executions : List Exec
  market_open : Option Nat
  market_close : Option Nat

/-- The fresh state built by `ITCH.__init__`. -/
def initPState : PState :=
  { order_book := fun _ => none
    stock_map := fun _ => none
    executions := []
    market_open := none
    market_close := none }

/-- `process_add_order(msg, with_mpid)`: unpack `>HH6sQcI8sI` (35 bytes) or
`>HH6sQcI8sI4s` (39 bytes, the trailing MPID is unread) and store the order
under its reference; a length mismatch raises `struct.error`, which is caught
and leaves the state unchanged. -/
def processAddOrder (msg : List Nat) (withMpid : Bool) (s : PState) : PState :=
  if msg.length ≠ (if withMpid then 39 else 35) then s
  else
    let orderRef := beField msg 10 18
    let shares := beField msg 19 23
    let price : ℚ := (beField msg 31 35 : ℚ) / 10000
    let stock := pyStrip (decodeAscii (pySlice msg 23 31))
    let side := decodeAscii (pySlice msg 18 19)
    { s with order_book := dictInsert s.order_book orderRef ⟨stock, price, shares, side⟩ }

/-- `process_order_replace(msg)`: unpack `>HH6sQQII` (34 bytes); when the old
reference is present, pop it and re-file the order under the new reference
with the new shares and price; otherwise do nothing. -/
def processOrderReplace (msg : List Nat) (s : PState) : PState :=
  if msg.length ≠ 34 then s
  else
    let oldRef := beField msg 10 18
    let newRef := beField msg 18 26
    let shares := beField msg 26 30
    let price : ℚ := (beField msg 30 34 : ℚ) / 10000
    match s.order_book oldRef with
    | none => s
    | some order =>
      let updated := { order with volume := shares, price := price }
      { s with order_book := dictInsert (dictErase s.order_book oldRef) newRef updated }

/-- `process_order_delete(msg)`: unpack `>HH6sQ` (18 bytes); pop the
referenced order when present. -/
def processOrderDelete (msg : List Nat) (s : PState) : PState :=
  if msg.length ≠ 18 then s
  else
    let orderRef := beField msg 10 18
    match s.order_book orderRef with
    | some _ => { s with order_book := dictErase s.order_book orderRef }
    | none => s

/-- The tail of `process_order_executed` shared by the `E` and `C` paths:
decrement the order's remaining volume when it covers the executed quantity
(popping the entry when it reaches 0), then record the execution, taking the
stock from the book entry if the reference is still present and `"UNKNOWN"`
otherwise. -/
def finishExecution (orderRef quantity : Nat) (price : ℚ) (timestamp : Nat)
    (s : PState) : PState :=
  let book1 :=
    match s.order_book orderRef with
    | some o =>
      if quantity ≤ o.volume then
        if o.volume - quantity = 0 then dictErase s.order_book orderRef
        else dictInsert s.order_book orderRef { o with volume := o.volume - quantity }
      else s.order_book
    | none => s.order_book
  let stock :=
    match book1 orderRef with
    | some o => o.stock
    | none => "UNKNOWN"
  { s with order_book := book1
           executions := s.executions ++ [⟨stock, price, quantity, convertTimestamp timestamp⟩] }

/-- `process_order_executed(msg, with_price)`:

* `C` (`with_price=True`): unpack `>HH6sQIQcI` (35 bytes); discard the
  message unless the printable flag (byte 30) is `"Y"`; the price is byte
  31..35 of the message, divided by 10000.
* `E` (`with_price=False`): unpack `>HH6sQIQ` (30 bytes); the price is looked
  up in the order book, 0.0 when the reference is absent.

A length mismatch raises `struct.error`, caught, state unchanged. -/
def processOrderExecuted (msg : List Nat) (withPrice : Bool) (s : PState) : PState :=
  if withPrice then
    if msg.length ≠ 35 then s
    else if decodeAscii (pySlice msg 30 31) ≠ "Y" then s
    else
      finishExecution (beField msg 10 18) (beField msg 18 22)
        ((beField msg 31 35 : ℚ) / 10000) (beField msg 4 10) s
  else
    if msg.length ≠ 30 then s
    else
      let price : ℚ :=
        match s.order_book (beField msg 10 18) with
        | some o => o.price
        | none => 0
      finishExecution (beField msg 10 18) (beField msg 18 22) price (beField msg 4 10) s

/-- The `m_map` size table of `parser.py` (body length per type byte;
includes `J` and `h`, unlike `hourly_vwap.py`). -/
def parserRecordSize (h : Nat) : Option Nat :=
  if h = 83 then some 11        -- S
  else if h = 82 then some 38   -- R
  else if h = 72 then some 24   -- H
  else if h = 89 then some 19   -- Y
  else if h = 76 then some 25   -- L
  else if h = 86 then some 34   -- V
  else if h = 87 then some 11   -- W
  else if h = 75 then some 27   -- K
  else if h = 74 then some 34   -- J
  else if h = 104 then some 20  -- h
  else if h = 65 then some 35   -- A
  else if h = 70 then some 39   -- F
  else if h = 69 then some 30   -- E
  else if h = 67 then some 35   -- C
  else if h = 88 then some 22   -- X
  else if h = 68 then some 18   -- D
  else if h = 85 then some 34   -- U
  else if h = 80 then some 43   -- P
  else if h = 81 then some 39   -- Q
  else if h = 66 then some 18   -- B
  else if h = 73 then some 49   -- I
  else if h = 78 then some 19   -- N
  else none

/-- The per-message state change of the dispatch chain in `parser.ITCH.parse`
(every branch except the `break` on a system-event `M`, which is loop
control, handled in `parserLoop`):

* `S` (11 bytes): event code `Q` sets `market_open` when it is still unset;
  event code `M` sets `market_close` (and halts the loop); other codes do
  nothing.
* `R` (38 bytes): map the stock-locate (bytes 0..2) to the stripped ticker
  (bytes 10..18).
* `A F U D E C` dispatch to the processors above; `P` appends the decoded
  trade to the executions list; all other known types are read and discarded.
-/
def applyMessage (header : Nat) (msg : List Nat) (s : PState) : PState :=
  if header = 83 then
    if msg.length ≠ 11 then s
    else
      let eventCode := decodeAscii (pySlice msg 10 11)
      let timestamp := beField msg 4 10
      if eventCode = "Q" ∧ s.market_open = none then { s with market_open := some timestamp }
      else if eventCode = "M" then { s with market_close := some timestamp }
      else s
  else if header = 82 then
    if msg.length ≠ 38 then s
    else
      { s with stock_map :=
          dictInsert s.stock_map (beField msg 0 2) (pyStrip (decodeAscii (pySlice msg 10 18))) }
  else if header = 65 then processAddOrder msg false s
  else if header = 70 then processAddOrder msg true s
  else if header = 85 then processOrderReplace msg s
  else if header = 68 then processOrderDelete msg s
  else if header = 69 then processOrderExecuted msg false s
  else if header = 67 then processOrderExecuted msg true s
  else if header = 80 then
    match processTrade msg with
    | some (t, _) =>
      { s with executions := s.executions ++ [⟨t.symbol, t.price, t.volume, t.time⟩] }
    | none => s
  else s

/-- Does this message hit the `break` of the parse loop? Only a well-formed
system-event message whose event code is `M` (76 + 1 = byte value 77). -/
def isMarketClose (header : Nat) (msg : List Nat) : Prop :=
  header = 83 ∧ msg.length = 11 ∧ decodeAscii (pySlice msg 10 11) = "M"

instance (header : Nat) (msg : List Nat) : Decidable (isMarketClose header msg) := by
  unfold isMarketClose; infer_instance

/-- The `while True` loop of `parser.ITCH.parse`: read one type byte; stop on
end of stream; skip the single byte when the type is unknown; otherwise read
the body, apply the message, and stop after a market-close system event. -/
def parserLoop : Nat → List Nat → PState → PState
  | 0, _, s => s
  | _ + 1, [], s => s
  | fuel + 1, header :: rest, s =>
    match parserRecordSize header with
    | none => parserLoop fuel rest s
    | some size =>
      let msg := rest.take size
      let s1 := applyMessage header msg s
      if isMarketClose header msg then s1
      else parserLoop fuel (rest.drop size) s1

/-- `parser.ITCH.parse` on a byte stream, as the final parser state. (The
code then writes `output/order_book.csv`, `output/executions.csv` and
`output/snapshots.csv` from that state.) -/
def parserParse (stream : List Nat) : PState :=
  parserLoop (stream.length + 1) stream initPState

/-! ## Claim-side definitions (from the spec's words, for comparison) -/

/-- Claim-side definition following the spec's words (data-model invariant 4
and the running VWAP emitter): for a symbol, the running VWAP at bucket `i`
is `(Σ_{j ≤ i} value_sum_j) / (Σ_{j ≤ i} qty_sum_j)`, or 0 if the
denominator is 0. With hour buckets, the cumulative sums range over all of
the symbol's trades whose hour is at most `i`. -/
def specRunningVwap (trades : List Trade) (sym : String) (i : Nat) : ℚ :=
  let upto := trades.filter (fun t => t.symbol = sym ∧ hourOfTimeStr t.time ≤ i)
  let num : ℚ := (upto.map (fun t => t.price * (t.volume : ℚ))).sum
  let den : ℚ := ((upto.map (fun t => t.volume)).sum : ℚ)
  if den = 0 then 0 else num / den

/-- The fields the claim says a `P` decoder extracts. -/
structure SpecPFields where
  locate : Nat
  ts : Nat
  shares : Nat
  price : ℚ
deriving Repr, DecidableEq

/-- Claim-side definition following the spec's words (message-layout table,
`P` row): stock-locate at body offset 0, timestamp as the 6-byte big-endian
integer at body offset 2, shares as the 4-byte big-endian integer at body
offset 14, price as the 4-byte big-endian integer at body offset 22 divided
by 10^4. -/
def specDecodeP (body : List Nat) : SpecPFields :=
  { locate := beField body 0 2
    ts := beField body 2 8
    shares := beField body 14 18
    price := (beField body 22 26 : ℚ) / 10000 }

/-! ## The windowed aggregation engine (modelled from the spec)

The spec's core — `engine.parser.main(fileName, time_from, time_to,
granularity, ticker)` with window filtering, bucket grids and a running-VWAP
wide CSV — is called by `src/dashboards/stmlt_dshbrd.py` but the version of
`src/engine/parser.py` in the tree only defines `main(fileName)`; the
windowed engine itself is not under `src/`. The window filter is therefore
modelled from the spec. -/

/-- An execution event handed to bucketing and aggregation. -/
structure ExecEvent where
  locate : Nat
  ts : Nat
  price : ℚ
  qty : Nat
deriving Repr, DecidableEq

/-- Modelled from the spec: the filtering step of "Bucketing & Aggregation"
(missing from `src/`, see above). Events are consumed in stream order; an
event with `ts_ns < start_ns` is dropped; the first event with
`ts_ns ≥ end_ns` halts the entire parse, so it and everything after it is
ignored. -/
def windowEvents (startNs endNs : Nat) (evs : List ExecEvent) : List ExecEvent :=
  (evs.takeWhile (fun e => e.ts < endNs)).filter (fun e => startNs ≤ e.ts)

/-- Modelled from the spec: the bucket key of a timestamp,
`⌊(ts − start) / gran⌋ · gran + start`. -/
def bucketKey (startNs granNs ts : Nat) : Nat :=
  (ts - startNs) / granNs * granNs + startNs

/-- Modelled from the spec: the accumulator cell of `(locate, bucket)` after
the scan — `(Σ price·qty, Σ qty)` over the windowed events that map to that
cell. -/
def cellSums (startNs endNs granNs : Nat) (evs : List ExecEvent)
    (key : Nat × Nat) : ℚ × Nat :=
  let ws := (windowEvents startNs endNs evs).filter
    (fun e => (e.locate, bucketKey startNs granNs e.ts) = key)
  ((ws.map (fun e => e.price * (e.qty : ℚ))).sum, (ws.map (fun e => e.qty)).sum)

/-! ## Concrete message and feed builders (for counterexamples and witnesses) -/

/-- Big-endian rendering of `n` in `len` bytes (as `int.to_bytes(len, 'big')`
produces for values that fit). -/
def beBytes (n len : Nat) : List Nat :=
  (List.range len).map (fun i => n / 256 ^ (len - 1 - i) % 256)

/-- `"AAPL    "` in ASCII. -/
def aaplSymbol : List Nat := [65, 65, 80, 76, 32, 32, 32, 32]

/-- A 43-byte Trade (`P`) body: locate 0, tracking 0, the given timestamp,
order reference 0, side `X`, the given shares, symbol, price (in 1/10000
units), match number 0. -/
def mkTradeBody (ts vol priceInt : Nat) (symbol : List Nat) : List Nat :=
  beBytes 0 2 ++ beBytes 0 2 ++ beBytes ts 6 ++ beBytes 0 8 ++ [88] ++
    beBytes vol 4 ++ symbol ++ beBytes priceInt 4 ++ beBytes 0 8

/-- A 35-byte Add Order (`A`) body for `AAPL`, side `B`, timestamp 0. -/
def mkAddBody (ref shares priceInt : Nat) : List Nat :=
  beBytes 0 2 ++ beBytes 0 2 ++ beBytes 0 6 ++ beBytes ref 8 ++ [66] ++
    beBytes shares 4 ++ aaplSymbol ++ beBytes priceInt 4

/-- A 30-byte Order Executed (`E`) body, timestamp 0, match number 0. -/
def mkExecBody (ref qty : Nat) : List Nat :=
  beBytes 0 2 ++ beBytes 0 2 ++ beBytes 0 6 ++ beBytes ref 8 ++ beBytes qty 4 ++ beBytes 0 8

/-- A 35-byte Order Executed With Price (`C`) body, timestamp 0. -/
def mkExecCBody (ref qty printable priceInt : Nat) : List Nat :=
  beBytes 0 2 ++ beBytes 0 2 ++ beBytes 0 6 ++ beBytes ref 8 ++ beBytes qty 4 ++
    beBytes 0 8 ++ [printable] ++ beBytes priceInt 4

/-- An 18-byte Order Delete (`D`) body, timestamp 0. -/
def mkDeleteBody (ref : Nat) : List Nat :=
  beBytes 0 2 ++ beBytes 0 2 ++ beBytes 0 6 ++ beBytes ref 8

/-- A 34-byte Order Replace (`U`) body, timestamp 0. -/
def mkReplaceBody (oldRef newRef shares priceInt : Nat) : List Nat :=
  beBytes 0 2 ++ beBytes 0 2 ++ beBytes 0 6 ++ beBytes oldRef 8 ++
    beBytes newRef 8 ++ beBytes shares 4 ++ beBytes priceInt 4

/-- An 11-byte System Event (`S`) body. -/
def mkSystemBody (ts eventCode : Nat) : List Nat :=
  beBytes 0 2 ++ beBytes 0 2 ++ beBytes ts 6 ++ [eventCode]

/-- Two `P` trades for `AAPL`: 100 shares at 150.0 in hour 00, then 100
shares at 160.0 in hour 01 (timestamp 3600·10⁹ ns). -/
def twoHourFeed : List Nat :=
  (80 :: mkTradeBody 0 100 1500000 aaplSymbol) ++
    (80 :: mkTradeBody 3600000000000 100 1600000 aaplSymbol)

/-- The two trade records that `twoHourFeed` decodes to. -/
def twoHourTrades : List Trade :=
  [⟨"00:00:00", "AAPL", 150, 100⟩, ⟨"01:00:00", "AAPL", 160, 100⟩]

/-- A single `P` trade for `AAPL`: 100 shares at 150.0 at midnight. -/
def oneTradeFeed : List Nat := 80 :: mkTradeBody 0 100 1500000 aaplSymbol

/-- A 43-byte `P` body whose byte at offset `i` is `i`, separating the
decoded fields of `process_trade` from the offsets the claim states. -/
def distinctBody : List Nat := List.range 43


/-! ## Helper lemmas -/

theorem toNat_ofNat_valid (n : Nat) (h : n.isValidChar) : (Char.ofNat n).toNat = n := by
  simp [Char.ofNat, Char.ofNatAux, Char.toNat, h, UInt32.toNat, BitVec.toNat_ofNatLt]

theorem charOfNat_eq_iff (n : Nat) (d : Char) (hd : d.toNat ≠ 0) :
    Char.ofNat n = d ↔ n = d.toNat := by
  constructor
  · intro h
    by_cases hv : n.isValidChar
    · rw [← h, toNat_ofNat_valid n hv]
    · exfalso
      apply hd
      rw [← h]
      simp [Char.ofNat, hv]
      rfl
  · intro h
    rw [h, Char.ofNat_toNat]

theorem pySlice_self (l : List Nat) (i : Nat) : pySlice l i i = [] := by
  simp [pySlice]

theorem pySlice_succ (l : List Nat) (i j : Nat) (hij : i < j) (hi : i < l.length) :
    pySlice l i j = l.getD i 0 :: pySlice l (i + 1) j := by
  unfold pySlice
  have hj : j - i = (j - (i + 1)) + 1 := by omega
  rw [hj, List.drop_eq_getElem_cons hi, List.take_succ_cons, List.getD_eq_getElem l 0 hi]

/-- A one-byte Python slice decodes to the one-character string of that byte. -/
theorem decodeAscii_single (c : Nat) (d : Char) (hd : d.toNat ≠ 0) :
    decodeAscii [c] = String.mk [d] ↔ c = d.toNat := by
  unfold decodeAscii
  constructor
  · intro h
    have h2 : [Char.ofNat c] = [d] := by simpa using congrArg String.data h
    exact (charOfNat_eq_iff c d hd).mp (by simpa using h2)
  · intro h
    simp [h, Char.ofNat_toNat]

/-! ## C6: unknown message types are skipped without consuming a body -/

/-- C6: for every type byte absent from the size table (of either parser),
the frame reader consumes no body bytes: it skips only that single type
byte, leaves all parser state unchanged, and interprets the immediately
following byte of the stream as the next message type — the loop continues
on the same state at exactly the remaining stream. -/
theorem c6_unknown_type_skip (t : Nat) (rest : List Nat) (fuel : Nat) :
    (hourlyRecordSize t = none →
      ∀ s : HState, hourlyLoop (fuel + 1) (t :: rest) s = hourlyLoop fuel rest s) ∧
    (parserRecordSize t = none →
      ∀ s : PState, parserLoop (fuel + 1) (t :: rest) s = parserLoop fuel rest s) := by
  constructor
  · intro h s
    simp [hourlyLoop, h]
  · intro h s
    simp [parserLoop, h]

/-- C6 witness: the byte `Z` (90) is in neither size table; prepending it to
a concrete feed leaves both parses to continue at the very next byte with
the state untouched. -/
theorem c6_unknown_type_skip_witness :
    hourlyLoop 2 (90 :: oneTradeFeed) ⟨[], none, []⟩ =
      hourlyLoop 1 oneTradeFeed ⟨[], none, []⟩ ∧
    parserLoop 2 (90 :: oneTradeFeed) initPState = parserLoop 1 oneTradeFeed initPState :=
  ⟨(c6_unknown_type_skip 90 oneTradeFeed 1).1 (by decide) ⟨[], none, []⟩,
   (c6_unknown_type_skip 90 oneTradeFeed 1).2 (by decide) initPState⟩

/-! ## C8: system events — market open, market close halts the parse -/

/-- One step of `parserLoop` on a recognized type: read the body, apply the
message, halt on market close. -/
theorem parserLoop_cons (fuel header : Nat) (stream : List Nat) (s : PState) (size : Nat)
    (hsz : parserRecordSize header = some size) :
    parserLoop (fuel + 1) (header :: stream) s =
      (if isMarketClose header (stream.take size)
       then applyMessage header (stream.take size) s
       else parserLoop fuel (stream.drop size) (applyMessage header (stream.take size) s)) := by
  simp [parserLoop, hsz]

/-- `applyMessage` on an 11-byte system-event body, by event code. -/
theorem applyMessage_S (body : List Nat) (s : PState) (hlen : body.length = 11) :
    applyMessage 83 body s =
      (if decodeAscii (pySlice body 10 11) = "Q" ∧ s.market_open = none
       then { s with market_open := some (beField body 4 10) }
       else if decodeAscii (pySlice body 10 11) = "M"
       then { s with market_close := some (beField body 4 10) }
       else s) := by
  simp [applyMessage, hlen]

/-- C8: for an 11-byte system-event (`S`) message in `parser.py`:
an event code byte `M` (77) makes the loop return at once — the rest of the
stream, whatever it is, is never consumed, so no subsequent message of any
type is processed; an event code `Q` (81) records market open when it is
still unset; any other event code byte leaves the state unchanged and the
loop continues with the remaining stream. -/
theorem c8_system_event (body rest : List Nat) (s : PState) (fuel : Nat)
    (hlen : body.length = 11) :
    (body.getD 10 0 = 77 →
      parserLoop (fuel + 1) (83 :: (body ++ rest)) s =
        { s with market_close := some (beField body 4 10) }) ∧
    (body.getD 10 0 = 81 → s.market_open = none →
      parserLoop (fuel + 1) (83 :: (body ++ rest)) s =
        parserLoop fuel rest { s with market_open := some (beField body 4 10) }) ∧
    (body.getD 10 0 ≠ 77 → body.getD 10 0 ≠ 81 → body.getD 10 0 < 256 →
      parserLoop (fuel + 1) (83 :: (body ++ rest)) s = parserLoop fuel rest s) := by
  have hsz : parserRecordSize 83 = some 11 := rfl
  have htake : (body ++ rest).take 11 = body := by
    rw [← hlen]
    exact List.take_left body rest
  have hdrop : (body ++ rest).drop 11 = rest := by
    rw [← hlen]
    exact List.drop_left body rest
  have hslice : pySlice body 10 11 = [body.getD 10 0] := by
    rw [pySlice_succ body 10 11 (by omega) (by omega), pySlice_self]
  have hstep := parserLoop_cons fuel 83 (body ++ rest) s 11 hsz
  rw [htake, hdrop] at hstep
  refine ⟨?_, ?_, ?_⟩
  · intro hM
    have hcode : decodeAscii (pySlice body 10 11) = "M" := by
      rw [hslice]
      exact (decodeAscii_single _ 'M' (by decide)).mpr (by simpa using hM)
    have hclose : isMarketClose 83 body := by
      unfold isMarketClose
      exact ⟨rfl, hlen, hcode⟩
    rw [hstep, if_pos hclose, applyMessage_S body s hlen, hcode,
      if_neg (fun h => absurd h.1 (by decide)), if_pos rfl]
  · intro hQ hopen
    have hcode : decodeAscii (pySlice body 10 11) = "Q" := by
      rw [hslice]
      exact (decodeAscii_single _ 'Q' (by decide)).mpr (by simpa using hQ)
    have hnot : ¬ isMarketClose 83 body := by
      unfold isMarketClose
      intro h
      rw [hcode] at h
      exact absurd h.2.2 (by decide)
    rw [hstep, if_neg hnot, applyMessage_S body s hlen, hcode, if_pos ⟨rfl, hopen⟩]
  · intro hM hQ hlt
    have hcM : decodeAscii (pySlice body 10 11) ≠ "M" := by
      rw [hslice]
      intro h
      exact hM ((decodeAscii_single _ 'M' (by decide)).mp h)
    have hcQ : decodeAscii (pySlice body 10 11) ≠ "Q" := by
      rw [hslice]
      intro h
      exact hQ ((decodeAscii_single _ 'Q' (by decide)).mp h)
    have hnot : ¬ isMarketClose 83 body := by
      unfold isMarketClose
      intro h
      exact hcM h.2.2
    rw [hstep, if_neg hnot, applyMessage_S body s hlen,
      if_neg (fun h => hcQ h.1), if_neg hcM]

/-- C8 witness: a market-close system event (code `M`, timestamp 5) halts the
parse — the pending trade message after it is never processed — while an
unrecognized event code (`X`) is ignored and parsing continues. -/
theorem c8_system_event_witness :
    parserLoop 4 (83 :: (mkSystemBody 5 77 ++ oneTradeFeed)) initPState =
      { initPState with market_close := some (beField (mkSystemBody 5 77) 4 10) } ∧
    parserLoop 4 (83 :: (mkSystemBody 0 88 ++ oneTradeFeed)) initPState =
      parserLoop 3 oneTradeFeed initPState :=
  ⟨(c8_system_event (mkSystemBody 5 77) oneTradeFeed initPState 3 (by decide)).1 (by decide),
   (c8_system_event (mkSystemBody 0 88) oneTradeFeed initPState 3 (by decide)).2.2
     (by decide) (by decide) (by decide)⟩

/-! ## Order-book lemmas -/

theorem dictInsert_self {α : Type} (m : Nat → Option α) (k : Nat) (v : α) :
    dictInsert m k v k = some v := by
  simp [dictInsert]

theorem dictInsert_other {α : Type} (m : Nat → Option α) (k q : Nat) (v : α) (h : q ≠ k) :
    dictInsert m k v q = m q := by
  simp [dictInsert, h]

theorem dictErase_self {α : Type} (m : Nat → Option α) (k : Nat) : dictErase m k k = none := by
  simp [dictErase]

theorem dictErase_other {α : Type} (m : Nat → Option α) (k q : Nat) (h : q ≠ k) :
    dictErase m k q = m q := by
  simp [dictErase, h]

/-- `finishExecution` when the reference holds an order whose remaining
volume equals the executed quantity: the entry is popped first, so the
recorded execution reads `"UNKNOWN"`. -/
theorem finishExecution_full (r q : Nat) (p : ℚ) (ts : Nat) (s : PState) (o : Order)
    (href : s.order_book r = some o) (hvol : o.volume = q) :
    finishExecution r q p ts s =
      { s with order_book := dictErase s.order_book r
               executions := s.executions ++ [⟨"UNKNOWN", p, q, convertTimestamp ts⟩] } := by
  unfold finishExecution
  rw [href]
  simp [hvol, dictErase_self]

/-- `finishExecution` when the reference is absent: the book is untouched and
the recorded execution reads `"UNKNOWN"`. -/
theorem finishExecution_absent (r q : Nat) (p : ℚ) (ts : Nat) (s : PState)
    (href : s.order_book r = none) :
    finishExecution r q p ts s =
      { s with executions := s.executions ++ [⟨"UNKNOWN", p, q, convertTimestamp ts⟩] } := by
  unfold finishExecution
  rw [href]
  simp [href]

/-- The book entry at `ref` is removed by `finishExecution` exactly when the
executed reference is `ref` and the held volume equals the quantity. -/
theorem finishExecution_book (r q : Nat) (p : ℚ) (ts : Nat) (s : PState) (ref : Nat) (o : Order)
    (href : s.order_book ref = some o) :
    ((finishExecution r q p ts s).order_book ref = none ↔ (r = ref ∧ o.volume = q)) := by
  unfold finishExecution
  by_cases hr : r = ref
  · subst hr
    rw [href]
    by_cases hq : q ≤ o.volume
    · by_cases h0 : o.volume - q = 0
      · simp [hq, h0, dictErase_self]
        omega
      · simp [hq, h0, dictInsert_self]
        omega
    · simp [hq, href]
      omega
  · have hbook : ∀ b : Nat → Option Order,
        (match s.order_book r with
          | some o' =>
            if q ≤ o'.volume then
              if o'.volume - q = 0 then dictErase s.order_book r
              else dictInsert s.order_book r { o' with volume := o'.volume - q }
            else s.order_book
          | none => s.order_book) ref = s.order_book ref := by
      intro b
      cases hb : s.order_book r with
      | none => rfl
      | some o' =>
        by_cases hq : q ≤ o'.volume
        · by_cases h0 : o'.volume - q = 0
          · simp [hq, h0, dictErase_other _ _ _ (Ne.symm hr)]
          · simp [hq, h0, dictInsert_other _ _ _ _ (Ne.symm hr)]
        · simp [hq]
    simp only []
    rw [show (r = ref ∧ o.volume = q) ↔ False by simp [hr]]
    simp [hbook (fun _ => none), href]

/-- `process_order_executed` on a well-formed `E` body reduces to
`finishExecution` with the price looked up in the order book (0 when the
reference is absent). -/
theorem processOrderExecuted_E (body : List Nat) (s : PState) (hlen : body.length = 30) :
    processOrderExecuted body false s =
      finishExecution (beField body 10 18) (beField body 18 22)
        (match s.order_book (beField body 10 18) with
          | some o => o.price
          | none => 0)
        (beField body 4 10) s := by
  simp [processOrderExecuted, hlen]

/-- `process_order_executed` on a well-formed `C` body whose printable byte
is `Y` (89) reduces to `finishExecution` with the message's own price. -/
theorem processOrderExecuted_C (body : List Nat) (s : PState) (hlen : body.length = 35)
    (hpr : body.getD 30 0 = 89) :
    processOrderExecuted body true s =
      finishExecution (beField body 10 18) (beField body 18 22)
        ((beField body 31 35 : ℚ) / 10000) (beField body 4 10) s := by
  have hslice : pySlice body 30 31 = [body.getD 30 0] := by
    rw [pySlice_succ body 30 31 (by omega) (by omega), pySlice_self]
  have hcode : decodeAscii (pySlice body 30 31) = "Y" := by
    rw [hslice]
    exact (decodeAscii_single _ 'Y' (by decide)).mpr (by simpa using hpr)
  simp [processOrderExecuted, hlen, hcode]

/-- A `C` body that is not 35 bytes with printable byte `Y` is discarded
without any state change. -/
theorem processOrderExecuted_C_discard (body : List Nat) (s : PState)
    (h : ¬ (body.length = 35 ∧ body.getD 30 0 = 89)) :
    processOrderExecuted body true s = s := by
  by_cases hlen : body.length = 35
  · have hpr : body.getD 30 0 ≠ 89 := fun hp => h ⟨hlen, hp⟩
    have hslice : pySlice body 30 31 = [body.getD 30 0] := by
      rw [pySlice_succ body 30 31 (by omega) (by omega), pySlice_self]
    have hcode : decodeAscii (pySlice body 30 31) ≠ "Y" := by
      rw [hslice]
      intro hc
      exact hpr ((decodeAscii_single _ 'Y' (by decide)).mp hc)
    simp [processOrderExecuted, hlen, hcode]
  · simp [processOrderExecuted, hlen]

/-- The book entry at `ref` survives `process_order_delete` exactly unless
the message is well-formed and names `ref`. -/
theorem processOrderDelete_book (body : List Nat) (s : PState) (ref : Nat) (o : Order)
    (href : s.order_book ref = some o) :
    ((processOrderDelete body s).order_book ref = none ↔
      (body.length = 18 ∧ beField body 10 18 = ref)) := by
  unfold processOrderDelete
  by_cases hlen : body.length = 18
  · rw [if_neg (by simp [hlen])]
    by_cases hr : beField body 10 18 = ref
    · simp [hr, href, dictErase_self, hlen]
    · cases hb : s.order_book (beField body 10 18) with
      | none => simp [hb, href, hlen, hr]
      | some o2 => simp [hb, dictErase_other _ _ _ (Ne.symm hr), href, hlen, hr]
  · simp [hlen, href]

/-- The book entry at `ref` is removed by `process_order_replace` exactly
when a well-formed replace names `ref` as the old reference and moves the
order to a different new reference. -/
theorem processOrderReplace_book (body : List Nat) (s : PState) (ref : Nat) (o : Order)
    (href : s.order_book ref = some o) :
    ((processOrderReplace body s).order_book ref = none ↔
      (body.length = 34 ∧ beField body 10 18 = ref ∧ beField body 18 26 ≠ ref)) := by
  unfold processOrderReplace
  by_cases hlen : body.length = 34
  · rw [if_neg (by simp [hlen])]
    by_cases hold : beField body 10 18 = ref
    · by_cases hnew : beField body 18 26 = ref
      · simp [hold, hnew, href, dictInsert_self, hlen]
      · simp [hold, hnew, href, dictInsert_other _ _ _ _ (Ne.symm hnew),
          dictErase_self, hlen]
    · cases hb : s.order_book (beField body 10 18) with
      | none => simp [hb, href, hlen, hold]
      | some o2 =>
        by_cases hnew : beField body 18 26 = ref
        · simp [hb, hnew, dictInsert_self, hlen, hold]
        · simp [hb, dictInsert_other _ _ _ _ (Ne.symm hnew),
            dictErase_other _ _ _ (Ne.symm hold), href, hlen, hold]
  · simp [hlen, href]

/-- `process_add_order` never removes a present book entry (it only inserts
or overwrites). -/
theorem processAddOrder_book (body : List Nat) (wp : Bool) (s : PState) (ref : Nat) (o : Order)
    (href : s.order_book ref = some o) :
    (processAddOrder body wp s).order_book ref ≠ none := by
  unfold processAddOrder
  by_cases hlen : body.length = (if wp then 39 else 35)
  · rw [if_neg (by simp [hlen])]
    by_cases hr : ref = beField body 10 18
    · simp [hr, dictInsert_self]
    · simp [dictInsert_other _ _ _ _ hr, href]
  · simp [hlen, href]

/-! ## C3: the printable gate on C messages -/

/-- C3: a `C` (order executed with price) message emits an execution if and
only if it is well-formed (35 bytes) and its printable flag byte (offset 30)
is `Y` (89): otherwise the whole parser state is unchanged; when the gate
passes, exactly one execution is appended, carrying the message's own price
(bytes 31..35 over 10^4) and quantity (bytes 18..22). -/
theorem c3_printable_gate (body : List Nat) (s : PState) :
    (¬ (body.length = 35 ∧ body.getD 30 0 = 89) → processOrderExecuted body true s = s) ∧
    (body.length = 35 → body.getD 30 0 = 89 →
      ∃ e : Exec, (processOrderExecuted body true s).executions = s.executions ++ [e] ∧
        e.price = (beField body 31 35 : ℚ) / 10000 ∧ e.volume = beField body 18 22) := by
  constructor
  · exact processOrderExecuted_C_discard body s
  · intro hlen hpr
    rw [processOrderExecuted_C body s hlen hpr]
    exact ⟨_, rfl, rfl, rfl⟩

/-- C3 witness: a non-printable execution (flag `N`, byte 78) leaves the
fresh state untouched; the same message with flag `Y` appends one execution
with the message's price 123.4567 and quantity 5. -/
theorem c3_printable_gate_witness :
    processOrderExecuted (mkExecCBody 7 5 78 1234567) true initPState = initPState ∧
    (∃ e : Exec,
      (processOrderExecuted (mkExecCBody 7 5 89 1234567) true initPState).executions =
        initPState.executions ++ [e] ∧
      e.price = (beField (mkExecCBody 7 5 89 1234567) 31 35 : ℚ) / 10000 ∧
      e.volume = beField (mkExecCBody 7 5 89 1234567) 18 22) :=
  ⟨(c3_printable_gate (mkExecCBody 7 5 78 1234567) initPState).1 (by decide),
   (c3_printable_gate (mkExecCBody 7 5 89 1234567) initPState).2 (by decide) (by decide)⟩

/-! ## C10: full executions are attributed to "UNKNOWN" -/

/-- C10: for an `E` execution, or a `C` execution passing the printable
gate, whose quantity equals the remaining volume of the cached order, the
order entry is popped before the execution record is built, so the record's
stock field is the literal `"UNKNOWN"` instead of the order's ticker; an
execution whose reference is absent at record time is attributed the same
way. -/
theorem c10_full_execution_unknown (wp : Bool) (body : List Nat) (s : PState)
    (hlen : body.length = (if wp then 35 else 30))
    (hpr : wp = true → body.getD 30 0 = 89) :
    (∀ o : Order, s.order_book (beField body 10 18) = some o →
        o.volume = beField body 18 22 →
      (processOrderExecuted body wp s).order_book (beField body 10 18) = none ∧
      ∃ p t, (processOrderExecuted body wp s).executions =
        s.executions ++ [⟨"UNKNOWN", p, beField body 18 22, t⟩]) ∧
    (s.order_book (beField body 10 18) = none →
      ∃ p t, (processOrderExecuted body wp s).executions =
        s.executions ++ [⟨"UNKNOWN", p, beField body 18 22, t⟩]) := by
  have hred : ∃ p, processOrderExecuted body wp s =
      finishExecution (beField body 10 18) (beField body 18 22) p (beField body 4 10) s := by
    cases wp with
    | false => exact ⟨_, processOrderExecuted_E body s (by simpa using hlen)⟩
    | true => exact ⟨_, processOrderExecuted_C body s (by simpa using hlen) (hpr rfl)⟩
  obtain ⟨p, hp⟩ := hred
  constructor
  · intro o href hvol
    rw [hp, finishExecution_full _ _ _ _ _ o href hvol]
    exact ⟨by simp [dictErase_self], p, convertTimestamp (beField body 4 10), by simp⟩
  · intro href
    rw [hp, finishExecution_absent _ _ _ _ _ href]
    exact ⟨p, convertTimestamp (beField body 4 10), by simp⟩

/-- A state holding one order: reference 7, 10 shares of `AAPL` at 100.0. -/
def addedState : PState := applyMessage 65 (mkAddBody 7 10 1000000) initPState

/-- C10 witness: executing all 10 remaining shares of order 7 pops the entry
and records the execution with stock `"UNKNOWN"`. -/
theorem c10_full_execution_unknown_witness :
    (processOrderExecuted (mkExecBody 7 10) false addedState).order_book 7 = none ∧
    ∃ p t, (processOrderExecuted (mkExecBody 7 10) false addedState).executions =
      addedState.executions ++ [⟨"UNKNOWN", p, 10, t⟩] :=
  (c10_full_execution_unknown false (mkExecBody 7 10) addedState (by decide)
      (fun h => by cases h)).1
    ⟨"AAPL", 100, 10, "B"⟩ (by with_unfolding_all decide) (by decide)

/-! ## C2: pricing of E executions -/

/-- C2 (amended): an `E` execution is priced from the order book entry for
its reference as it stands when the message is processed — the book is
populated by add-orders and replaces, and entries can have been removed by
deletes, replaces or volume-exhausting executions — with price 0 when the
reference is absent; one execution is appended either way, carrying the
message's quantity, and parsing continues. -/
theorem c2_exec_price_from_book (body : List Nat) (s : PState) (hlen : body.length = 30) :
    ∃ st : String, (processOrderExecuted body false s).executions =
      s.executions ++ [⟨st,
        (match s.order_book (beField body 10 18) with
          | some o => o.price
          | none => 0),
        beField body 18 22, convertTimestamp (beField body 4 10)⟩] := by
  rw [processOrderExecuted_E body s hlen]
  exact ⟨_, rfl⟩

/-- C2 witness: with order 7 in the book at price 100.0, an `E` for 4 shares
of reference 7 is priced 100.0 and appends one execution of 4 shares. -/
theorem c2_exec_price_from_book_witness :
    ∃ st : String, (processOrderExecuted (mkExecBody 7 4) false addedState).executions =
      addedState.executions ++ [⟨st,
        (match addedState.order_book (beField (mkExecBody 7 4) 10 18) with
          | some o => o.price
          | none => 0),
        beField (mkExecBody 7 4) 18 22, convertTimestamp (beField (mkExecBody 7 4) 4 10)⟩] :=
  c2_exec_price_from_book (mkExecBody 7 4) addedState (by decide)

/-- The run refuting C2 as stated: add order 42 (10 shares at 100.0), then
execute all 10 shares (the entry is popped), then execute 5 more shares of
the same reference. -/
def c2Run : PState :=
  processOrderExecuted (mkExecBody 42 5) false
    (processOrderExecuted (mkExecBody 42 10) false
      (processAddOrder (mkAddBody 42 10 1000000) false initPState))

/-- C2 counterexample: the add-order message cached price 100.0 for order
reference 42, yet the second `E` execution for that same reference is
emitted with price 0 (the full execution in between removed the cache
entry), and it still contributes its 5 shares. The claim's "price cached by
a prior add-order message for the same order reference" (100.0) differs from
the emitted price (0). -/
theorem c2_counterexample :
    ((processAddOrder (mkAddBody 42 10 1000000) false initPState).order_book 42).map
        Order.price = some 100 ∧
    c2Run.executions.map Exec.price = [100, 0] ∧
    c2Run.executions.map Exec.volume = [10, 5] ∧
    (0 : ℚ) ≠ 100 := by
  refine ⟨by with_unfolding_all decide, by with_unfolding_all decide,
    by with_unfolding_all decide, by with_unfolding_all decide⟩

/-! ## C5: order-book entries are not persistent -/

/-- An `E` execution removes the entry at `ref` exactly when it is
well-formed, names `ref`, and its quantity equals the entry's remaining
volume. -/
theorem processOrderExecuted_book_E (body : List Nat) (s : PState) (ref : Nat) (o : Order)
    (href : s.order_book ref = some o) :
    ((processOrderExecuted body false s).order_book ref = none ↔
      (body.length = 30 ∧ beField body 10 18 = ref ∧ o.volume = beField body 18 22)) := by
  by_cases hlen : body.length = 30
  · rw [processOrderExecuted_E body s hlen, finishExecution_book _ _ _ _ _ ref o href]
    simp [hlen]
  · simp [processOrderExecuted, hlen, href]

/-- A `C` execution removes the entry at `ref` exactly when it is
well-formed, printable, names `ref`, and its quantity equals the entry's
remaining volume. -/
theorem processOrderExecuted_book_C (body : List Nat) (s : PState) (ref : Nat) (o : Order)
    (href : s.order_book ref = some o) :
    ((processOrderExecuted body true s).order_book ref = none ↔
      (body.length = 35 ∧ body.getD 30 0 = 89 ∧ beField body 10 18 = ref ∧
        o.volume = beField body 18 22)) := by
  by_cases hok : body.length = 35 ∧ body.getD 30 0 = 89
  · obtain ⟨hlen, hpr⟩ := hok
    have hpr2 : body.getD 30 0 = 89 := hpr
    rw [processOrderExecuted_C body s hlen hpr, finishExecution_book _ _ _ _ _ ref o href]
    rw [List.getD_eq_getElem body 0 (by omega)] at hpr2
    simp [hlen, hpr2]
  · rw [processOrderExecuted_C_discard body s hok]
    rw [href]
    constructor
    · intro h
      exact absurd h (by simp)
    · intro h
      exact absurd ⟨h.1, h.2.1⟩ hok

/-- The system-event handler never touches the order book. -/
theorem applyMessage_S_book (body : List Nat) (s : PState) :
    (applyMessage 83 body s).order_book = s.order_book := by
  by_cases hlen : body.length = 11
  · rw [applyMessage_S body s hlen]
    split_ifs <;> rfl
  · have h : applyMessage 83 body s = s := by simp [applyMessage, hlen]
    rw [h]

/-- The stock-directory handler never touches the order book. -/
theorem applyMessage_R_book (body : List Nat) (s : PState) :
    (applyMessage 82 body s).order_book = s.order_book := by
  by_cases hlen : body.length = 38
  · have h : applyMessage 82 body s =
        { s with stock_map :=
            dictInsert s.stock_map (beField body 0 2) (pyStrip (decodeAscii (pySlice body 10 18))) } := by
      simp [applyMessage, hlen]
    rw [h]
  · have h : applyMessage 82 body s = s := by simp [applyMessage, hlen]
    rw [h]

/-- The trade handler never touches the order book. -/
theorem applyMessage_P_book (body : List Nat) (s : PState) :
    (applyMessage 80 body s).order_book = s.order_book := by
  cases hp : processTrade body with
  | none =>
    have h : applyMessage 80 body s = s := by simp [applyMessage, hp]
    rw [h]
  | some t =>
    obtain ⟨a, b⟩ := t
    have h : applyMessage 80 body s =
        { s with executions := s.executions ++ [⟨a.symbol, a.price, a.volume, a.time⟩] } := by
      simp [applyMessage, hp]
    rw [h]

/-- The exact circumstances under which processing one message removes the
book entry at `ref` currently holding the order `o`: a well-formed delete
naming `ref`; a well-formed replace moving `ref` to a different reference;
or a well-formed `E`, or printable `C`, naming `ref` with quantity equal to
the remaining volume. -/
def bookRemoval (header : Nat) (body : List Nat) (ref : Nat) (o : Order) : Prop :=
  (header = 68 ∧ body.length = 18 ∧ beField body 10 18 = ref) ∨
  (header = 85 ∧ body.length = 34 ∧ beField body 10 18 = ref ∧ beField body 18 26 ≠ ref) ∨
  (header = 69 ∧ body.length = 30 ∧ beField body 10 18 = ref ∧ o.volume = beField body 18 22) ∨
  (header = 67 ∧ body.length = 35 ∧ body.getD 30 0 = 89 ∧ beField body 10 18 = ref ∧
    o.volume = beField body 18 22)

/-- C5 (amended): order-book entries are not persistent. An entry present
before a message is absent afterwards exactly in the `bookRemoval` cases:
order deletes (`D`) remove their referenced entry, order replaces (`U`)
remove the old reference's entry when re-filing it under a different
reference, and executions (`E`, printable `C`) remove an entry whose
remaining volume they exhaust; every other message — including add-orders,
which only insert or overwrite — leaves the entry's key mapped. -/
theorem c5_book_persistence (header : Nat) (body : List Nat) (s : PState) (ref : Nat) (o : Order)
    (href : s.order_book ref = some o) :
    ((applyMessage header body s).order_book ref = none ↔ bookRemoval header body ref o) := by
  by_cases h83 : header = 83
  · subst h83
    rw [applyMessage_S_book body s]
    simp [bookRemoval, href]
  by_cases h82 : header = 82
  · subst h82
    rw [applyMessage_R_book body s]
    simp [bookRemoval, href]
  by_cases h65 : header = 65
  · subst h65
    rw [show applyMessage 65 body s = processAddOrder body false s from rfl]
    simp only [bookRemoval]
    norm_num
    exact processAddOrder_book body false s ref o href
  by_cases h70 : header = 70
  · subst h70
    rw [show applyMessage 70 body s = processAddOrder body true s from rfl]
    simp only [bookRemoval]
    norm_num
    exact processAddOrder_book body true s ref o href
  by_cases h85 : header = 85
  · subst h85
    rw [show applyMessage 85 body s = processOrderReplace body s from rfl]
    rw [processOrderReplace_book body s ref o href]
    simp [bookRemoval]
  by_cases h68 : header = 68
  · subst h68
    rw [show applyMessage 68 body s = processOrderDelete body s from rfl]
    rw [processOrderDelete_book body s ref o href]
    simp [bookRemoval]
  by_cases h69 : header = 69
  · subst h69
    rw [show applyMessage 69 body s = processOrderExecuted body false s from rfl]
    rw [processOrderExecuted_book_E body s ref o href]
    simp [bookRemoval]
  by_cases h67 : header = 67
  · subst h67
    rw [show applyMessage 67 body s = processOrderExecuted body true s from rfl]
    rw [processOrderExecuted_book_C body s ref o href]
    simp [bookRemoval]
  by_cases h80 : header = 80
  · subst h80
    rw [applyMessage_P_book body s]
    simp [bookRemoval, href]
  · rw [show applyMessage header body s = s by
      simp [applyMessage, h83, h82, h65, h70, h85, h68, h69, h67, h80]]
    simp [bookRemoval, href, h85, h68, h69, h67]

/-- C5 counterexample: an add-order creates the entry for reference 7, and a
subsequent order-delete message removes it — the entry does not survive, so
processing a message does not leave every existing cache entry present. -/
theorem c5_counterexample :
    ((applyMessage 65 (mkAddBody 7 10 1000000) initPState).order_book 7).isSome = true ∧
    (applyMessage 68 (mkDeleteBody 7) addedState).order_book 7 = none := by
  constructor
  · with_unfolding_all decide
  · with_unfolding_all decide

/-- C5 witness: the characterization applied to the delete of order 7 held
with 10 shares at price 100.0. -/
theorem c5_book_persistence_witness :
    ((applyMessage 68 (mkDeleteBody 7) addedState).order_book 7 = none ↔
      bookRemoval 68 (mkDeleteBody 7) 7 ⟨"AAPL", 100, 10, "B"⟩) :=
  c5_book_persistence 68 (mkDeleteBody 7) addedState 7 ⟨"AAPL", 100, 10, "B"⟩
    (by with_unfolding_all decide)

/-! ## C9: what the program actually writes -/

/-- Any property holding of every flushed file and of the prior outputs
holds of the outputs after a flush. -/
theorem flushTrades_outputs_P (P : OutFile → Prop)
    (hP : ∀ hr trades, trades ≠ [] →
      P ⟨"output/" ++ hr ++ ".txt", ["time", "symbol", "vwap"], calVwap trades⟩)
    (hr : String) (s : HState) (hs : ∀ f ∈ s.outputs, P f) :
    ∀ f ∈ (flushTrades hr s).outputs, P f := by
  intro f hf
  unfold flushTrades at hf
  split_ifs at hf with h
  · exact hs f hf
  · simp only [List.mem_append, List.mem_singleton] at hf
    rcases hf with hf | hf
    · exact hs f hf
    · rw [hf]
      exact hP hr s.trades h

/-- The `P`-message handler can only add flush files to the outputs. -/
theorem hourlyHandleP_outputs_P (P : OutFile → Prop)
    (hP : ∀ hr trades, trades ≠ [] →
      P ⟨"output/" ++ hr ++ ".txt", ["time", "symbol", "vwap"], calVwap trades⟩)
    (msg : List Nat) (s : HState) (hs : ∀ f ∈ s.outputs, P f) :
    ∀ f ∈ (hourlyHandleP msg s).outputs, P f := by
  intro f hf
  unfold hourlyHandleP at hf
  cases hpt : processTrade msg with
  | none =>
    rw [hpt] at hf
    exact hs f hf
  | some t =>
    obtain ⟨trade, tradeHour⟩ := t
    rw [hpt] at hf
    cases hcur : s.currentHour with
    | none =>
      rw [hcur] at hf
      dsimp only at hf
      rw [if_neg (fun h : tradeHour ≠ tradeHour => h rfl)] at hf
      exact hs f hf
    | some ch =>
      rw [hcur] at hf
      dsimp only at hf
      rw [hcur] at hf
      dsimp only at hf
      by_cases hne : tradeHour ≠ ch
      · rw [if_pos hne] at hf
        exact flushTrades_outputs_P P hP ch s hs f hf
      · rw [if_neg hne] at hf
        exact hs f hf

/-- Output-file invariant of the whole hourly parse loop: any property that
holds of every flush file is preserved across the run. -/
theorem hourlyLoop_outputs_P (P : OutFile → Prop)
    (hP : ∀ hr trades, trades ≠ [] →
      P ⟨"output/" ++ hr ++ ".txt", ["time", "symbol", "vwap"], calVwap trades⟩) :
    ∀ (fuel : Nat) (stream : List Nat) (s : HState), (∀ f ∈ s.outputs, P f) →
      ∀ f ∈ (hourlyLoop fuel stream s).outputs, P f := by
  intro fuel
  induction fuel with
  | zero =>
    intro stream s hs f hf
    exact hs f hf
  | succ n ih =>
    intro stream s hs f hf
    cases stream with
    | nil => exact hs f hf
    | cons header rest =>
      unfold hourlyLoop at hf
      cases hsz : hourlyRecordSize header with
      | none =>
        rw [hsz] at hf
        exact ih rest s hs f hf
      | some size =>
        rw [hsz] at hf
        dsimp only at hf
        by_cases h80 : header = 80
        · rw [if_pos h80] at hf
          exact ih (rest.drop size) (hourlyHandleP (rest.take size) s)
            (hourlyHandleP_outputs_P P hP (rest.take size) s hs) f hf
        · rw [if_neg h80] at hf
          exact ih (rest.drop size) s hs f hf

/-- Output-file invariant of `hourly_vwap.ITCH.parse`, including the final
flush. -/
theorem hourlyParse_outputs_P (P : OutFile → Prop)
    (hP : ∀ hr trades, trades ≠ [] →
      P ⟨"output/" ++ hr ++ ".txt", ["time", "symbol", "vwap"], calVwap trades⟩)
    (stream : List Nat) : ∀ f ∈ (hourlyParse stream).outputs, P f := by
  intro f hf
  unfold hourlyParse at hf
  dsimp only at hf
  have hloop := hourlyLoop_outputs_P P hP (stream.length + 1) stream ⟨[], none, []⟩
    (by intro f hf; simp at hf)
  cases hcur : (hourlyLoop (stream.length + 1) stream ⟨[], none, []⟩).currentHour with
  | none =>
    rw [hcur] at hf
    exact hloop f hf
  | some ch =>
    rw [hcur] at hf
    exact flushTrades_outputs_P P hP ch _ hloop f hf

/-- C9 (amended): each flush of the hourly VWAP engine appends one
space-separated output file at `output/<hour>.txt` whose header row is
`time symbol vwap` with no index column; a run can write several such files
(one per flushed hour), not a single CSV, and no file carries a
`Stock Ticker` column. -/
theorem c9_output_files (stream : List Nat) (f : OutFile)
    (hf : f ∈ (hourlyParse stream).outputs) :
    f.header = ["time", "symbol", "vwap"] ∧ ∃ hr, f.path = "output/" ++ hr ++ ".txt" := by
  refine hourlyParse_outputs_P
    (fun f => f.header = ["time", "symbol", "vwap"] ∧ ∃ hr, f.path = "output/" ++ hr ++ ".txt")
    ?_ stream f hf
  intro hr trades h
  exact ⟨rfl, hr, rfl⟩

/-- C9 witness: the single-trade feed writes `output/00.txt` with header
`time symbol vwap`. -/
theorem c9_output_files_witness :
    (hourlyParse oneTradeFeed).outputs.map OutFile.path = ["output/00.txt"] ∧
    ∀ f ∈ (hourlyParse oneTradeFeed).outputs,
      f.header = ["time", "symbol", "vwap"] ∧ ∃ hr, f.path = "output/" ++ hr ++ ".txt" :=
  ⟨by with_unfolding_all decide, fun f hf => c9_output_files oneTradeFeed f hf⟩

/-- C9 counterexample: on a successful run over a single-trade feed the
hourly engine writes `output/00.txt` — an hour-named `.txt` file whose first
column header is `time`, not a CSV whose first column header is
`Stock Ticker`. -/
theorem c9_counterexample :
    (hourlyParse oneTradeFeed).outputs.map (fun f => (f.path, f.header)) =
      [("output/00.txt", ["time", "symbol", "vwap"])] ∧
    ("time" : String) ≠ "Stock Ticker" := by
  constructor
  · with_unfolding_all decide
  · decide

/-! ## C1: what value each bucket column carries -/

/-- The VWAP that `cal_vwap` computes for one `(hour, symbol)` group of a
batch of trades: the group's own amount and volume sums, rounded to two
decimals; `none` (pandas `NaN`) when the group's volume sum is 0. -/
def groupVwap (batch : List Trade) (k : Nat × String) : Option ℚ :=
  let grp := batch.filter (fun t => (hourOfTimeStr t.time, t.symbol) = k)
  let vol : Nat := (grp.map (fun t => t.volume)).sum
  if vol = 0 then none
  else some (round2 (((grp.map (fun t => t.price * (t.volume : ℚ))).sum) / (vol : ℚ)))

/-- Every row of `cal_vwap` is the group VWAP of its own `(hour, symbol)`
key over the batch it was computed from. -/
theorem calVwap_rows (batch : List Trade) (row : VRow) (hrow : row ∈ calVwap batch) :
    ∃ k : Nat × String, row.time = twoDigits k.1 ++ ":00:00" ∧ row.symbol = k.2 ∧
      row.vwap = groupVwap batch k := by
  unfold calVwap at hrow
  dsimp only at hrow
  rw [List.mem_map] at hrow
  obtain ⟨k, hk, heq⟩ := hrow
  refine ⟨k, ?_, ?_, ?_⟩ <;> rw [← heq] <;> rfl

/-- C1 (amended): every value emitted by the hourly VWAP engine is a
per-batch, per-bucket VWAP, not a running one: each output file's rows are
`cal_vwap` of the batch of trades accumulated since the previous flush, and
each row's value is `round2` of that batch's own
`(Σ price·qty) / (Σ qty)` for its `(hour, symbol)` group — `NaN` (not 0)
when that group's quantity sum is 0. Nothing is accumulated across buckets.
-/
theorem c1_per_batch_vwap (stream : List Nat) (f : OutFile)
    (hf : f ∈ (hourlyParse stream).outputs) :
    ∃ batch : List Trade, batch ≠ [] ∧ f.rows = calVwap batch ∧
      ∀ row ∈ f.rows, ∃ k : Nat × String,
        row.time = twoDigits k.1 ++ ":00:00" ∧ row.symbol = k.2 ∧
        row.vwap = groupVwap batch k := by
  have hP : ∀ (hr : String) (trades : List Trade), trades ≠ [] →
      (fun f : OutFile => ∃ batch : List Trade, batch ≠ [] ∧ f.rows = calVwap batch)
        ⟨"output/" ++ hr ++ ".txt", ["time", "symbol", "vwap"], calVwap trades⟩ :=
    fun _ trades h => ⟨trades, h, rfl⟩
  obtain ⟨batch, hne, hrows⟩ := hourlyParse_outputs_P
    (fun f => ∃ batch : List Trade, batch ≠ [] ∧ f.rows = calVwap batch) hP stream f hf
  refine ⟨batch, hne, hrows, ?_⟩
  intro row hrow
  rw [hrows] at hrow
  exact calVwap_rows batch row hrow

/-- C1 witness: the one output file of the single-trade run is `cal_vwap` of
a non-empty batch, each row carrying its group's own VWAP. -/
theorem c1_per_batch_vwap_witness :
    ∃ batch : List Trade, batch ≠ [] ∧
      (⟨"output/00.txt", ["time", "symbol", "vwap"],
        [⟨"00:00:00", "AAPL", some 150⟩]⟩ : OutFile).rows = calVwap batch ∧
      ∀ row ∈ (⟨"output/00.txt", ["time", "symbol", "vwap"],
          [⟨"00:00:00", "AAPL", some 150⟩]⟩ : OutFile).rows,
        ∃ k : Nat × String, row.time = twoDigits k.1 ++ ":00:00" ∧ row.symbol = k.2 ∧
          row.vwap = groupVwap batch k :=
  c1_per_batch_vwap oneTradeFeed _ (by with_unfolding_all decide)

/-- `"MSFT    "` in ASCII. -/
def msftSymbol : List Nat := [77, 83, 70, 84, 32, 32, 32, 32]

/-- Three `P` trades: `AAPL` 100 shares at 150.0 in hour 00, `AAPL` 100
shares at 160.0 in hour 01, and `MSFT` 0 shares at 10.0 in hour 01. -/
def c1Feed : List Nat :=
  (80 :: mkTradeBody 0 100 1500000 aaplSymbol) ++
    ((80 :: mkTradeBody 3600000000000 100 1600000 aaplSymbol) ++
      (80 :: mkTradeBody 3600000000000 0 100000 msftSymbol))

/-- The trade records the decoder extracts from `c1Feed`. -/
def c1Trades : List Trade :=
  [⟨"00:00:00", "AAPL", 150, 100⟩, ⟨"01:00:00", "AAPL", 160, 100⟩, ⟨"01:00:00", "MSFT", 10, 0⟩]

/-- C1 counterexample: on `c1Feed` the hourly engine emits 160.0 for `AAPL`
in bucket 01 — the bucket's own VWAP — while the claim's running VWAP over
buckets 00..01 is `(100·150 + 100·160) / 200 = 155`; and for `MSFT`, whose
cumulative quantity denominator is 0, the emitted value is `NaN` (modelled
`none`), not the claimed 0. -/
theorem c1_counterexample :
    ([mkTradeBody 0 100 1500000 aaplSymbol, mkTradeBody 3600000000000 100 1600000 aaplSymbol,
        mkTradeBody 3600000000000 0 100000 msftSymbol].filterMap
      (fun m => (processTrade m).map Prod.fst)) = c1Trades ∧
    (hourlyParse c1Feed).outputs =
      [⟨"output/00.txt", ["time", "symbol", "vwap"], [⟨"00:00:00", "AAPL", some 150⟩]⟩,
       ⟨"output/01.txt", ["time", "symbol", "vwap"],
         [⟨"01:00:00", "AAPL", some 160⟩, ⟨"01:00:00", "MSFT", none⟩]⟩] ∧
    specRunningVwap c1Trades "AAPL" 1 = 155 ∧ ((160 : ℚ) ≠ 155) ∧
    specRunningVwap c1Trades "MSFT" 1 = 0 ∧ ((none : Option ℚ) ≠ some 0) := by
  refine ⟨?_, ?_, ?_, ?_, ?_, ?_⟩ <;> with_unfolding_all decide

/-! ## C4: window exclusion (spec-modelled) -/

/-- Events kept by the window filter lie in `[start_ns, end_ns)`. -/
theorem windowEvents_mem (startNs endNs : Nat) (evs : List ExecEvent) (e : ExecEvent)
    (he : e ∈ windowEvents startNs endNs evs) : startNs ≤ e.ts ∧ e.ts < endNs := by
  unfold windowEvents at he
  rw [List.mem_filter] at he
  obtain ⟨htw, hge⟩ := he
  have hlt := List.mem_takeWhile_imp htw
  constructor
  · simpa using hge
  · simpa using hlt

/-- Dropping an event with `ts < start_ns` from the stream leaves the
windowed event sequence unchanged (given a well-formed window). -/
theorem windowEvents_drop_early (startNs endNs : Nat) (hse : startNs ≤ endNs)
    (xs ys : List ExecEvent) (e : ExecEvent) (he : e.ts < startNs) :
    windowEvents startNs endNs (xs ++ e :: ys) = windowEvents startNs endNs (xs ++ ys) := by
  unfold windowEvents
  induction xs with
  | nil =>
    simp only [List.nil_append, List.takeWhile_cons]
    have hpe : decide (e.ts < endNs) = true := by
      simp
      omega
    rw [hpe]
    simp only [if_true, List.filter_cons]
    have hne : decide (startNs ≤ e.ts) = false := by
      simp
      omega
    rw [hne]
    simp
  | cons x xs ih =>
    simp only [List.cons_append, List.takeWhile_cons]
    cases hx : decide (x.ts < endNs) with
    | false => simp
    | true =>
      simp only [if_true, List.filter_cons]
      rw [ih]

/-- The first event with `ts ≥ end_ns` halts the parse: everything after it
in the stream is ignored by the windowed event sequence. -/
theorem windowEvents_halt (startNs endNs : Nat) (xs ys ys2 : List ExecEvent) (e : ExecEvent)
    (he : endNs ≤ e.ts) :
    windowEvents startNs endNs (xs ++ e :: ys) = windowEvents startNs endNs (xs ++ e :: ys2) := by
  unfold windowEvents
  induction xs with
  | nil =>
    simp only [List.nil_append, List.takeWhile_cons]
    have hpe : decide (e.ts < endNs) = false := by
      simp
      omega
    rw [hpe]
    simp
  | cons x xs ih =>
    simp only [List.cons_append, List.takeWhile_cons]
    cases hx : decide (x.ts < endNs) with
    | false => simp
    | true =>
      simp only [if_true, List.filter_cons]
      rw [ih]

/-- C4: window exclusion for the spec-modelled bucketing filter (the
windowed engine `engine.parser.main(file, time_from, time_to, granularity,
ticker)` invoked by the dashboard is not under `src/`; `windowEvents` and
`cellSums` are modelled from the spec). Every event the filter keeps lies in
`[start_ns, end_ns)`; an event below `start_ns` is dropped and affects no
cell; and at the first event at or past `end_ns` the parse halts, so the
cells are independent of everything after it in the stream. In particular
no execution with `ts < start_ns` or `ts ≥ end_ns` affects any cell. -/
theorem c4_window_exclusion (startNs endNs granNs : Nat) (hse : startNs ≤ endNs) :
    (∀ evs : List ExecEvent, ∀ e ∈ windowEvents startNs endNs evs,
      startNs ≤ e.ts ∧ e.ts < endNs) ∧
    (∀ xs ys : List ExecEvent, ∀ e : ExecEvent, e.ts < startNs → ∀ key : Nat × Nat,
      cellSums startNs endNs granNs (xs ++ e :: ys) key =
        cellSums startNs endNs granNs (xs ++ ys) key) ∧
    (∀ xs ys ys2 : List ExecEvent, ∀ e : ExecEvent, endNs ≤ e.ts → ∀ key : Nat × Nat,
      cellSums startNs endNs granNs (xs ++ e :: ys) key =
        cellSums startNs endNs granNs (xs ++ e :: ys2) key) := by
  refine ⟨?_, ?_, ?_⟩
  · intro evs e he
    exact windowEvents_mem startNs endNs evs e he
  · intro xs ys e he key
    unfold cellSums
    rw [windowEvents_drop_early startNs endNs hse xs ys e he]
  · intro xs ys ys2 e he key
    unfold cellSums
    rw [windowEvents_halt startNs endNs xs ys ys2 e he]

/-- C4 witness: with window `[100, 200)` and granularity 10, an event at
ts 50 affects no cell, an event at ts 250 halts the parse (later events are
ignored), and the one event the filter keeps, at ts 150, lies in the
window. -/
theorem c4_window_exclusion_witness :
    (∀ e ∈ windowEvents 100 200 [⟨1, 50, 5, 2⟩, ⟨1, 150, 5, 2⟩, ⟨1, 250, 5, 2⟩, ⟨1, 150, 7, 3⟩],
      100 ≤ e.ts ∧ e.ts < 200) ∧
    cellSums 100 200 10 ([] ++ ⟨1, 50, 5, 2⟩ :: [⟨1, 150, 5, 2⟩]) (1, 150) =
      cellSums 100 200 10 ([] ++ [⟨1, 150, 5, 2⟩]) (1, 150) ∧
    cellSums 100 200 10 ([⟨1, 150, 5, 2⟩] ++ ⟨1, 250, 5, 2⟩ :: [⟨1, 150, 7, 3⟩]) (1, 150) =
      cellSums 100 200 10 ([⟨1, 150, 5, 2⟩] ++ ⟨1, 250, 5, 2⟩ :: []) (1, 150) :=
  ⟨(c4_window_exclusion 100 200 10 (by decide)).1 _,
   (c4_window_exclusion 100 200 10 (by decide)).2.1 [] [⟨1, 150, 5, 2⟩] ⟨1, 50, 5, 2⟩
     (by decide) (1, 150),
   (c4_window_exclusion 100 200 10 (by decide)).2.2 [⟨1, 150, 5, 2⟩] [⟨1, 150, 7, 3⟩] []
     ⟨1, 250, 5, 2⟩ (by decide) (1, 150)⟩

/-! ## C7: field offsets of the P (trade) decoder -/

theorem beField_expand4 (l : List Nat) (i : Nat) (h : i + 4 ≤ l.length) :
    beField l i (i + 4) =
      l.getD i 0 * 16777216 + l.getD (i + 1) 0 * 65536 + l.getD (i + 2) 0 * 256 +
        l.getD (i + 3) 0 := by
  unfold beField
  rw [pySlice_succ l i (i + 4) (by omega) (by omega),
    pySlice_succ l (i + 1) (i + 4) (by omega) (by omega),
    pySlice_succ l (i + 2) (i + 4) (by omega) (by omega),
    pySlice_succ l (i + 3) (i + 4) (by omega) (by omega),
    pySlice_self]
  simp [beNat]
  ring

theorem beField_expand6 (l : List Nat) (i : Nat) (h : i + 6 ≤ l.length) :
    beField l i (i + 6) =
      l.getD i 0 * 1099511627776 + l.getD (i + 1) 0 * 4294967296 +
        l.getD (i + 2) 0 * 16777216 + l.getD (i + 3) 0 * 65536 + l.getD (i + 4) 0 * 256 +
        l.getD (i + 5) 0 := by
  unfold beField
  rw [pySlice_succ l i (i + 6) (by omega) (by omega),
    pySlice_succ l (i + 1) (i + 6) (by omega) (by omega),
    pySlice_succ l (i + 2) (i + 6) (by omega) (by omega),
    pySlice_succ l (i + 3) (i + 6) (by omega) (by omega),
    pySlice_succ l (i + 4) (i + 6) (by omega) (by omega),
    pySlice_succ l (i + 5) (i + 6) (by omega) (by omega),
    pySlice_self]
  simp [beNat]
  ring

/-- C7 (amended): `process_trade` reads no stock-locate field at all; on a
43-byte `P` body it extracts the timestamp as the 6-byte big-endian integer
at body offset 4 (rendered through `convert_timestamp`), the shares as the
4-byte big-endian integer at offset 19, the symbol as the 8 ASCII bytes at
offset 23 (whitespace-stripped), and the price as the 4-byte big-endian
integer at offset 31 divided by 10^4; any other body length is rejected. -/
theorem c7_trade_decoding (body : List Nat) (hlen : body.length = 43) :
    (∃ tr : Trade × String, processTrade body = some tr ∧
      tr.1.time = convertTimestamp
        (body.getD 4 0 * 1099511627776 + body.getD 5 0 * 4294967296 +
          body.getD 6 0 * 16777216 + body.getD 7 0 * 65536 + body.getD 8 0 * 256 +
          body.getD 9 0) ∧
      tr.1.volume = body.getD 19 0 * 16777216 + body.getD 20 0 * 65536 +
        body.getD 21 0 * 256 + body.getD 22 0 ∧
      tr.1.price = ((body.getD 31 0 * 16777216 + body.getD 32 0 * 65536 +
        body.getD 33 0 * 256 + body.getD 34 0 : Nat) : ℚ) / 10000 ∧
      tr.1.symbol = pyStrip (decodeAscii (pySlice body 23 31)) ∧
      tr.2 = hourPart tr.1.time) ∧
    (∀ other : List Nat, other.length ≠ 43 → processTrade other = none) := by
  have h6 : beField body 4 10 =
      body.getD 4 0 * 1099511627776 + body.getD 5 0 * 4294967296 + body.getD 6 0 * 16777216 +
        body.getD 7 0 * 65536 + body.getD 8 0 * 256 + body.getD 9 0 := by
    have := beField_expand6 body 4 (by omega)
    simpa using this
  have h19 : beField body 19 23 =
      body.getD 19 0 * 16777216 + body.getD 20 0 * 65536 + body.getD 21 0 * 256 +
        body.getD 22 0 := by
    have := beField_expand4 body 19 (by omega)
    simpa using this
  have h31 : beField body 31 35 =
      body.getD 31 0 * 16777216 + body.getD 32 0 * 65536 + body.getD 33 0 * 256 +
        body.getD 34 0 := by
    have := beField_expand4 body 31 (by omega)
    simpa using this
  constructor
  · refine ⟨(⟨convertTimestamp (beField body 4 10), pyStrip (decodeAscii (pySlice body 23 31)),
        (beField body 31 35 : ℚ) / 10000, beField body 19 23⟩,
        hourPart (convertTimestamp (beField body 4 10))), ?_, ?_, ?_, ?_, rfl, rfl⟩
    · simp [processTrade, hlen]
    · rw [h6]
    · exact h19
    · rw [h31]
  · intro other hother
    simp [processTrade, hother]

/-- C7 witness: the amended decoding applied to the body whose byte at each
offset is the offset itself. -/
theorem c7_trade_decoding_witness :
    (∃ tr : Trade × String, processTrade distinctBody = some tr ∧
      tr.1.time = convertTimestamp
        (distinctBody.getD 4 0 * 1099511627776 + distinctBody.getD 5 0 * 4294967296 +
          distinctBody.getD 6 0 * 16777216 + distinctBody.getD 7 0 * 65536 +
          distinctBody.getD 8 0 * 256 + distinctBody.getD 9 0) ∧
      tr.1.volume = distinctBody.getD 19 0 * 16777216 + distinctBody.getD 20 0 * 65536 +
        distinctBody.getD 21 0 * 256 + distinctBody.getD 22 0 ∧
      tr.1.price = ((distinctBody.getD 31 0 * 16777216 + distinctBody.getD 32 0 * 65536 +
        distinctBody.getD 33 0 * 256 + distinctBody.getD 34 0 : Nat) : ℚ) / 10000 ∧
      tr.1.symbol = pyStrip (decodeAscii (pySlice distinctBody 23 31)) ∧
      tr.2 = hourPart tr.1.time) ∧
    (∀ other : List Nat, other.length ≠ 43 → processTrade other = none) :=
  c7_trade_decoding distinctBody (by decide)

/-- C7 counterexample: on the 43-byte body whose byte at offset `i` is `i`,
`process_trade` extracts the timestamp from bytes 4..10, the shares from
bytes 19..23 and the price from bytes 31..35 — each different from the
claimed offsets (timestamp at 2, shares at 14, price at 22), and the claimed
stock-locate at offset 0 is never read. -/
theorem c7_counterexample :
    (processTrade distinctBody).map (fun r => (r.1.time, (r.1.volume : ℚ), r.1.price)) =
      some (convertTimestamp (beField distinctBody 4 10), (beField distinctBody 19 23 : ℚ),
        (beField distinctBody 31 35 : ℚ) / 10000) ∧
    beField distinctBody 4 10 ≠ (specDecodeP distinctBody).ts ∧
    ((beField distinctBody 19 23 : ℚ) ≠ ((specDecodeP distinctBody).shares : ℚ)) ∧
    ((beField distinctBody 31 35 : ℚ) / 10000 ≠ (specDecodeP distinctBody).price) := by
  refine ⟨?_, ?_, ?_, ?_⟩
  · rfl
  · decide
  · have hne : beField distinctBody 19 23 ≠ (specDecodeP distinctBody).shares := by decide
    exact fun h => hne (by exact_mod_cast h)
  · have hne : beField distinctBody 31 35 ≠ beField distinctBody 22 26 := by decide
    simp only [specDecodeP]
    intro h
    rw [div_eq_div_iff (by norm_num) (by norm_num)] at h
    have h2 : (beField distinctBody 31 35 : ℚ) = (beField distinctBody 22 26 : ℚ) :=
      mul_right_cancel₀ (by norm_num) h
    exact hne (by exact_mod_cast h2)
